import Mathlib

/-!
Shallow embedding of the turmyx configuration-driven command resolution
engine (src/turmyx/config.py and src/turmyx.py) and proofs of the
specification claims about it.

The flat (INI / ConfigParser) configuration is modelled as an ordered list
of sections, each section an ordered association list of string keys to
string values, mirroring ConfigParser's insertion-ordered sections and
options.  Python exceptions (KeyError, AttributeError, ValueError) are
modelled with an explicit error type.  Python's substring test
(needle in haystack) is modelled by an executable infix check on the
character lists of the strings.
-/

set_option autoImplicit false

deriving instance DecidableEq for Except

namespace Turmyx

/-- Python substring containment on character lists:
subChars n h decides whether n occurs contiguously inside h. -/
def subChars (n : List Char) : List Char → Bool
  | [] => n.isEmpty
  | c :: t => n.isPrefixOf (c :: t) || subChars n t

/-- Python `needle in haystack` for strings (substring containment). -/
def pyIn (needle haystack : String) : Bool :=
  subChars needle.data haystack.data

/-- Python str.split with a single-character separator, on char lists.
Empty fields are kept and splitting the empty list yields one empty
field, exactly as in Python. -/
def splitChars (sep : Char) : List Char → List (List Char)
  | [] => [[]]
  | c :: t =>
    if c = sep then [] :: splitChars sep t
    else
      match splitChars sep t with
      | [] => [[c]]
      | h :: r => (c :: h) :: r

/-- Python s.split(sep) for a one-character separator (the source only
splits on " " and ":"). -/
def pySplit (s : String) (sep : Char) : List String :=
  (splitChars sep s.data).map String.mk

/-- Python " ".join(xs). -/
def joinSpace (xs : List String) : String :=
  String.intercalate " " xs

/-- Errors raised by the Python code: KeyError carrying the missing key,
AttributeError (method call on None), ValueError ("Command not found"),
and the spec's ConfigurationIncomplete condition for the YAML model. -/
inductive TErr where
  | keyError (k : String)
  | attributeError
  | notFound
  | configurationIncomplete
  deriving DecidableEq

/-- A command rule: turmyx/commands.py is not under src/, so the record
shape is modelled from the spec (section 3) and from how config.py builds
it: name, executable, args string, and the list of classifiers. -/
structure Command where
  name : String
  command : String
  args : String
  classes : List String
  deriving DecidableEq

/-- One ConfigParser section: its name and its ordered option list. -/
structure Sect where
  name : String
  entries : List (String × String)
  deriving DecidableEq

/-- A flat configuration is the ordered list of its sections. -/
abbrev Cfg := List Sect

/-- Option lookup inside a section (Python section[key], as an Option). -/
def sectGet (s : Sect) (k : String) : Option String :=
  (s.entries.find? (fun p => p.1 == k)).map (fun p => p.2)

/-- Section lookup by exact name (Python self[name], as an Option). -/
def cfgGet (c : Cfg) (n : String) : Option Sect :=
  c.find? (fun s => s.name == n)

/-- ConfigParser.set on one section: overwrite the option in place if the
key exists, otherwise append it. -/
def sectSet (s : Sect) (k v : String) : Sect :=
  if s.entries.any (fun p => p.1 == k) then
    { s with entries := s.entries.map (fun p => if p.1 == k then (k, v) else p) }
  else
    { s with entries := s.entries ++ [(k, v)] }

/-- ConfigParser.set: update the named section (sections are untouched when
the name differs). -/
def cfgSet (c : Cfg) (n k v : String) : Cfg :=
  c.map (fun s => if s.name == n then sectSet s k v else s)

/-- Python `if section not in self: self[section] = dict()`: append an
empty section of that name when absent. -/
def cfgEnsure (c : Cfg) (n : String) : Cfg :=
  if c.any (fun s => s.name == n) then c else c ++ [⟨n, []⟩]

/-- The candidate filter of CfgConfig.__get_section:
`"default" not in section and section_kind in section`. -/
def isCandidate (kind : String) (s : Sect) : Bool :=
  !(pyIn "default" s.name) && pyIn kind s.name

/-- The scan loop of CfgConfig.__get_section: walk the sections in order;
the first candidate section missing the classifier key raises KeyError
(Python self[section][class_kind]); otherwise return the first candidate
whose space-split classifier list contains the query. -/
def scanSections : Cfg → String → String → String → Option (Except TErr Sect)
  | [], _, _, _ => none
  | s :: rest, kind, ck, q =>
    if isCandidate kind s then
      match sectGet s ck with
      | none => some (.error (.keyError ck))
      | some v =>
        if q ∈ pySplit v ' ' then some (.ok s)
        else scanSections rest kind ck q
    else scanSections rest kind ck q

/-- CfgConfig.__get_section: the scan, falling back to the
"<kind>:default" section (KeyError when that section is absent). -/
def getSection (c : Cfg) (kind ck q : String) : Except TErr Sect :=
  match scanSections c kind ck q with
  | some r => r
  | none =>
    match cfgGet c (kind ++ ":default") with
    | some s => .ok s
    | none => .error (.keyError (kind ++ ":default"))

/-- CfgConfig.__get_command's Command construction from a section:
section["command"] (KeyError when missing), args defaulting to "",
classes from the space-split classifier value (empty when the key is
missing), and name = section.name.split(":")[0]. -/
def mkCommand (ck : String) (s : Sect) : Except TErr Command :=
  match sectGet s "command" with
  | none => .error (.keyError "command")
  | some exe =>
    .ok { name := (pySplit s.name ':').headD ""
          command := exe
          args := (sectGet s "args").getD ""
          classes := match sectGet s ck with
            | some v => pySplit v ' '
            | none => [] }

/-- CfgConfig.__get_command = __get_section followed by the Command
construction. -/
def cfgGetCommand (c : Cfg) (kind ck q : String) : Except TErr Command :=
  (getSection c kind ck q).bind (mkCommand ck)

/-- CfgConfig.get_file_editor. -/
def getFileEditor (c : Cfg) (ext : String) : Except TErr Command :=
  cfgGetCommand c "file-editors" "extensions" ext

/-- CfgConfig.get_url_opener. -/
def getUrlOpener (c : Cfg) (dom : String) : Except TErr Command :=
  cfgGetCommand c "url-openers" "domains" dom

/-- The declarative first-match predicate: a candidate section whose
stored classifier value, split on spaces, contains the query. -/
def matchesB (kind ck q : String) (s : Sect) : Bool :=
  isCandidate kind s && decide (q ∈ pySplit ((sectGet s ck).getD "") ' ')

/-- The classes_name table of TurmyxConfig in config.py:
{"file-editors": "extensions", "url-openers": "domains"}; dict.get
returns None for any other kind. -/
def classesName (kind : String) : Option String :=
  if kind = "file-editors" then some "extensions"
  else if kind = "url-openers" then some "domains"
  else none

/-- Python Path(p).name: the final component after the last "/". -/
def pathBasename (p : String) : String :=
  (pySplit p '/').getLastD ""

/-- CfgConfig.__set_command: derive the section name from the command's
name (or the executable basename when the name is empty), ensure the
section exists, set "command" and "args", then set the classifier key
obtained from classes_name.get(kind).  When classes_name has no entry for
the kind (Python returns None), ConfigParser.set raises AttributeError
after the first two options were already written, so the result is the
partially mutated configuration together with the raised error. -/
def setCommand (c : Cfg) (cmd : Command) (kind : String) : Cfg × Option TErr :=
  let nm := if cmd.name ≠ "" then cmd.name else pathBasename cmd.command
  let sec := kind ++ ":" ++ nm
  let c1 := cfgEnsure c sec
  let c2 := cfgSet c1 sec "command" cmd.command
  let c3 := cfgSet c2 sec "args" cmd.args
  match classesName kind with
  | none => (c3, some .attributeError)
  | some ck => (cfgSet c3 sec ck (joinSpace cmd.classes), none)

/-- CfgConfig.set_file_editor (kind defaults to "file-editors"). -/
def setFileEditor (c : Cfg) (cmd : Command) : Cfg × Option TErr :=
  setCommand c cmd "file-editors"

/-- CfgConfig.set_url_opener: the source passes kind="opener". -/
def setUrlOpener (c : Cfg) (cmd : Command) : Cfg × Option TErr :=
  setCommand c cmd "opener"

/-- ConfigParser.remove_section: delete the named section when present,
reporting absence with none (Python returns False). -/
def removeSection (c : Cfg) (n : String) : Option Cfg :=
  if c.any (fun s => s.name == n) then
    some (c.filter (fun s => !(s.name == n)))
  else none

/-- CfgConfig.__remove_command: remove the "<kind>:<name>" section or
raise ValueError ("Command not found in config file."). -/
def removeCommand (c : Cfg) (nm kind : String) : Except TErr Cfg :=
  match removeSection c (kind ++ ":" ++ nm) with
  | some c2 => .ok c2
  | none => .error .notFound

/-- The suggestion computation of the CLI remove command in turmyx.py:
every section whose full name contains the query as a substring. -/
def suggestions (c : Cfg) (q : String) : List String :=
  (c.filter (fun s => pyIn q s.name)).map (fun s => s.name)

/-- TurmyxConfig.guess_file_command in turmyx.py, from the extracted
extension onward: the same scan with kind "editor" and key "extensions",
returning the matched section name or the literal "editor:default". -/
def guessFileCommand (c : Cfg) (ext : String) : Except TErr String :=
  match scanSections c "editor" "extensions" ext with
  | some (.error e) => .error e
  | some (.ok s) => .ok s.name
  | none => .ok "editor:default"

/-- TurmyxConfig.guess_url_command in turmyx.py, from the parsed
urlparse(url).netloc onward (URL parsing is the external collaborator):
an empty domain short-circuits to "opener:default" before the scan;
otherwise the scan runs with kind "opener" and key "domains". -/
def guessUrlCommand (c : Cfg) (domain : String) : Except TErr String :=
  if domain = "" then .ok "opener:default"
  else
    match scanSections c "opener" "domains" domain with
    | some (.error e) => .error e
    | some (.ok s) => .ok s.name
    | none => .ok "opener:default"

/-- The in-memory command table of one partition.  Modelled from the
spec: turmyx/commands.py is not under src/; per spec section 3 a
partition is an insertion-ordered mapping from command name to Command
plus a designated default, so CommandDict carries the ordered command
list (commands.values()) and the optional default. -/
structure CommandDict where
  commands : List Command
  default : Option Command
  deriving DecidableEq

/-- YAMLConfig.__get_command: collect every classifier of every command;
when the query is among them, return the first command owning it,
otherwise return the default.  Command.from_command and the behaviour of
commands.default on a missing default are modelled from the spec
(turmyx/commands.py is not under src/): from_command copies the command,
and a missing default is the ConfigurationIncomplete failure. -/
def yamlGetCommand (cd : CommandDict) (q : String) : Except TErr Command :=
  let allClasses := (cd.commands.map (fun cmd => cmd.classes)).flatten
  if q ∈ allClasses then
    match cd.commands.find? (fun cmd => decide (q ∈ cmd.classes)) with
    | some cmd => .ok cmd
    | none => .error .attributeError
  else
    match cd.default with
    | some d => .ok d
    | none => .error .configurationIncomplete

/-- A YAML scalar or list value, as far as the configuration uses them. -/
inductive YVal where
  | s (v : String)
  | l (vs : List String)
  deriving DecidableEq

/-- One serialized command entry: a Python dict of field name to value,
as an ordered association list. -/
abbrev YFields := List (String × YVal)

/-- One serialized partition: its "commands" mapping of name to field
dict, plus the serialized default entry.  The exact key layout of the
non-commands part is modelled from the spec (turmyx/commands.py is not
under src/). -/
structure YPartRaw where
  commands : List (String × YFields)
  defaultEntry : Option YFields
  deriving DecidableEq

/-- Python d.pop(k): the value of k and the dict without it, or None when
the key is absent (which pop turns into KeyError at the call sites). -/
def popKey (d : YFields) (k : String) : Option (YVal × YFields) :=
  match d.find? (fun p => p.1 == k) with
  | none => none
  | some p => some (p.2, d.filter (fun q => !(q.1 == k)))

/-- Python d[k] = v on a dict: overwrite in place or append. -/
def setYKey (d : YFields) (k : String) (v : YVal) : YFields :=
  if d.any (fun p => p.1 == k) then
    d.map (fun p => if p.1 == k then (k, v) else p)
  else d ++ [(k, v)]

/-- Python `d[new] = d.pop(old)` as used by YAMLConfig.load and as_dict:
KeyError when old is absent. -/
def renameYKey (d : YFields) (old new : String) : Except TErr YFields :=
  match popKey d old with
  | none => .error (.keyError old)
  | some (v, d2) => .ok (setYKey d2 new v)

/-- The rename loop of YAMLConfig.load / as_dict over the commands
mapping, stopping at the first KeyError like the Python for loop. -/
def renameCmds (old new : String) :
    List (String × YFields) → Except TErr (List (String × YFields))
  | [] => .ok []
  | (n, d) :: t =>
    match renameYKey d old new with
    | .error e => .error e
    | .ok d2 =>
      match renameCmds old new t with
      | .error e => .error e
      | .ok t2 => .ok ((n, d2) :: t2)

/-- Rename one field key in every command entry of a partition, leaving
the default entry untouched (load and as_dict only walk
part.get("commands").values()). -/
def renamePart (p : YPartRaw) (old new : String) : Except TErr YPartRaw :=
  match renameCmds old new p.commands with
  | .error e => .error e
  | .ok cs => .ok ⟨cs, p.defaultEntry⟩

/-- Building a Command from a renamed field dict.  Modelled from the
spec: the CommandDict constructor of turmyx/commands.py is not under
src/; per the spec's data model an entry carries the executable under
"command", the argument string under "args" (absent means empty) and the
classifier list under "classes". -/
def fieldsToCommand (n : String) (d : YFields) : Except TErr Command :=
  match d.find? (fun p => p.1 == "command") with
  | some (_, .s exe) =>
    .ok { name := n
          command := exe
          args := match d.find? (fun p => p.1 == "args") with
            | some (_, .s a) => a
            | _ => ""
          classes := match d.find? (fun p => p.1 == "classes") with
            | some (_, .l cs) => cs
            | _ => [] }
  | _ => .error (.keyError "command")

/-- The command list of CommandDict(part).  Modelled from the spec
(turmyx/commands.py is not under src/). -/
def commandsOfRaw : List (String × YFields) → Except TErr (List Command)
  | [] => .ok []
  | (n, d) :: t =>
    match fieldsToCommand n d with
    | .error e => .error e
    | .ok cmd =>
      match commandsOfRaw t with
      | .error e => .error e
      | .ok t2 => .ok (cmd :: t2)

/-- CommandDict(part).  Modelled from the spec (turmyx/commands.py is not
under src/): the ordered command table plus the optional default. -/
def commandDictOfRaw (p : YPartRaw) : Except TErr CommandDict :=
  match commandsOfRaw p.commands with
  | .error e => .error e
  | .ok cs =>
    match p.defaultEntry with
    | none => .ok ⟨cs, none⟩
    | some d =>
      match fieldsToCommand "default" d with
      | .error e => .error e
      | .ok dc => .ok ⟨cs, some dc⟩

/-- CommandDict.as_dict for one command.  Modelled from the spec
(turmyx/commands.py is not under src/): the inverse field layout of
fieldsToCommand, emitting the "classes" key that as_dict then renames. -/
def commandToFields (c : Command) : YFields :=
  [("command", .s c.command), ("args", .s c.args), ("classes", .l c.classes)]

/-- CommandDict.as_dict for a partition.  Modelled from the spec
(turmyx/commands.py is not under src/). -/
def commandDictToRaw (cd : CommandDict) : YPartRaw :=
  ⟨cd.commands.map (fun c => (c.name, commandToFields c)),
   cd.default.map commandToFields⟩

/-- The in-memory state of YAMLConfig: one CommandDict per partition. -/
structure YAMLState where
  file_editors : CommandDict
  url_openers : CommandDict
  deriving DecidableEq

/-- The top-level mapping of the serialized YAML document, with
dict.get as an Option-valued lookup. -/
def lookupKey (doc : List (String × YPartRaw)) (k : String) : Option YPartRaw :=
  (doc.find? (fun p => p.1 == k)).map (fun p => p.2)

/-- YAMLConfig.as_dict: rename "classes" to "extensions" in the
file-editor entries and to "domains" in the url-opener entries, then
return dict(file_editors=..., url_openers=...) — the top-level keys are
the Python keyword names with underscores. -/
def yamlAsDict (st : YAMLState) : Except TErr (List (String × YPartRaw)) :=
  match renamePart (commandDictToRaw st.file_editors) "classes" "extensions" with
  | .error e => .error e
  | .ok ed =>
    match renamePart (commandDictToRaw st.url_openers) "classes" "domains" with
    | .error e => .error e
    | .ok op => .ok [("file_editors", ed), ("url_openers", op)]

/-- YAMLConfig.load on an already parsed document (yaml.load/dump are
the external serializer): yml_data.get("file-editors") returning None
makes the following .get("commands") raise AttributeError; otherwise the
entries are renamed and turned into CommandDicts, then the same for
"url-openers". -/
def yamlLoad (doc : List (String × YPartRaw)) : Except TErr YAMLState :=
  match lookupKey doc "file-editors" with
  | none => .error .attributeError
  | some ed =>
    match renamePart ed "extensions" "classes" with
    | .error e => .error e
    | .ok edR =>
      match commandDictOfRaw edR with
      | .error e => .error e
      | .ok edCD =>
        match lookupKey doc "url-openers" with
        | none => .error .attributeError
        | some op =>
          match renamePart op "domains" "classes" with
          | .error e => .error e
          | .ok opR =>
            match commandDictOfRaw opR with
            | .error e => .error e
            | .ok opCD => .ok ⟨edCD, opCD⟩

/-- The round trip save-then-load of YAMLConfig, with yaml.dump and
yaml.load as mutually inverse external serialization. -/
def yamlRoundTrip (st : YAMLState) : Except TErr YAMLState :=
  (yamlAsDict st).bind yamlLoad

/-- The flat section encoding one command rule of a partition, as the
spec's storage layout describes it: group "<kind>:<name>" with keys
command, args and the space-joined classifier list (clsStr names the
stored classifier string of each entry). -/
def flatEntry (kind ck : String) (clsStr : Command → String) (e : Command) : Sect :=
  ⟨kind ++ ":" ++ e.name, [("command", e.command), ("args", e.args), (ck, clsStr e)]⟩

/-- A whole partition in the flat encoding: the rule sections in
insertion order followed by the "<kind>:default" section when the
partition has a default. -/
def flatOf (kind ck : String) (clsStr : Command → String) (cd : CommandDict) : Cfg :=
  cd.commands.map (flatEntry kind ck clsStr) ++
    (match cd.default with
     | some d => [⟨kind ++ ":default", [("command", d.command), ("args", d.args)]⟩]
     | none => [])

/-- Observable equality of two resolution outcomes as the spec compares
them: same executable, argument string and classifier list, or failure
on both sides (the Command name field is not part of the comparison). -/
def obsEq : Except TErr Command → Except TErr Command → Prop
  | .ok a, .ok b => a.command = b.command ∧ a.args = b.args ∧ a.classes = b.classes
  | .error _, .error _ => True
  | _, _ => False

/-- The spec's concrete file-editor scenario: nano for txt and md, radare
for exe, vi as the default. -/
def demoC1 : Cfg :=
  [⟨"file-editors:nano", [("command", "nano"), ("args", ""), ("extensions", "txt md")]⟩,
   ⟨"file-editors:radare", [("command", "radare"), ("args", ""), ("extensions", "exe")]⟩,
   ⟨"file-editors:default", [("command", "vi"), ("args", "")]⟩]

/-- A partition whose first (and only) non-default entry is named
"mydefault" and owns "txt", next to a vi default: a legal registry on
which the unrestricted first-match reading of resolve fails. -/
def demoC1bad : Cfg :=
  [⟨"file-editors:mydefault", [("command", "emacs"), ("args", ""), ("extensions", "txt")]⟩,
   ⟨"file-editors:default", [("command", "vi"), ("args", "")]⟩]

/-- The nano/radare/vi scenario as an entry list with default, for the
amended first-match statement of claim C1. -/
def cdC1w : CommandDict :=
  ⟨[⟨"nano", "nano", "", ["txt", "md"]⟩, ⟨"radare", "radare", "", ["exe"]⟩],
   some ⟨"default", "vi", "", []⟩⟩

/-- A registry with one rule and a vi default, used against claim C3. -/
def demoC3 : Cfg :=
  [⟨"file-editors:nano", [("command", "nano"), ("args", ""), ("extensions", "txt md")]⟩,
   ⟨"file-editors:default", [("command", "vi"), ("args", "")]⟩]

/-- A named command with an empty classifier set, used against claim C3. -/
def fooCmd : Command := ⟨"foo", "/bin/foo", "", []⟩

/-- A registry with one rule per partition, used against claim C4. -/
def demoC4 : Cfg :=
  [⟨"editor:nano", [("command", "nano"), ("extensions", "txt")]⟩,
   ⟨"opener:nanoview", [("command", "nv"), ("domains", "x.com")]⟩]

/-- A registry whose only rule section lacks the extensions key although
a default exists, used against claim C5. -/
def demoC5 : Cfg :=
  [⟨"file-editors:foo", [("command", "x")]⟩,
   ⟨"file-editors:default", [("command", "vi")]⟩]

/-- A url-opener partition holding only its default, used for claim C6. -/
def demoC6 : Cfg :=
  [⟨"url-openers:default", [("command", "firefox"), ("args", "")]⟩]

/-- The ytdl command of the spec's url-opener scenario. -/
def ytdlCmd : Command := ⟨"ytdl", "/usr/bin/youtube-dl", "", ["youtube.com", "youtu.be"]⟩

/-- A CommandDict whose only rule has a name containing "default", used
against claim C7. -/
def cdC7 : CommandDict :=
  ⟨[⟨"mydefault", "emacs", "", ["txt"]⟩], some ⟨"default", "vi", "", []⟩⟩

/-- The flat encoding of cdC7 with space-joined classifier strings. -/
def flatC7 : Cfg := flatOf "file-editors" "extensions" (fun e => joinSpace e.classes) cdC7

/-- The url-opener scenario of claim C6/C7 as a CommandDict. -/
def cdC7w : CommandDict :=
  ⟨[ytdlCmd], some ⟨"default", "firefox", "", []⟩⟩

/-- A config whose opener section would match the empty classifier if the
scan ran on it, used for claim C8. -/
def demoC8 : Cfg :=
  [⟨"opener:qr", [("command", "qr"), ("domains", "")]⟩]

/-- The nano/radare/vi registry again, used for claim C9. -/
def demoC9 : Cfg :=
  [⟨"file-editors:nano", [("command", "nano"), ("args", ""), ("extensions", "txt md")]⟩,
   ⟨"file-editors:radare", [("command", "radare"), ("args", ""), ("extensions", "exe")]⟩,
   ⟨"file-editors:default", [("command", "vi"), ("args", "")]⟩]

/-- A registry whose "default"-containing rule section owns the queried
classifier, used for claim C10. -/
def demoC10 : Cfg :=
  [⟨"file-editors:mydefault", [("command", "emacs"), ("extensions", "txt")]⟩,
   ⟨"file-editors:default", [("command", "vi")]⟩]

/-- A small YAML state used to exercise the round trip of claim C2. -/
def demoC2 : YAMLState :=
  ⟨⟨[⟨"nano", "nano", "", ["txt", "md"]⟩], some ⟨"default", "vi", "", []⟩⟩,
   ⟨[], some ⟨"default", "firefox", "", []⟩⟩⟩

/-! ## Helper lemmas -/

lemma subChars_of_prefix {n h : List Char} (hp : n <+: h) : subChars n h = true := by
  cases h with
  | nil =>
    rw [List.prefix_nil] at hp
    subst hp
    rfl
  | cons c t =>
    have : n.isPrefixOf (c :: t) = true := by
      rw [List.isPrefixOf_iff_prefix]
      exact hp
    simp [subChars, this]

lemma subChars_append_left (n m : List Char) : subChars n (n ++ m) = true :=
  subChars_of_prefix (List.prefix_append n m)

lemma subChars_append_right (n : List Char) : ∀ l : List Char, subChars n (l ++ n) = true
  | [] => subChars_of_prefix (by simp)
  | c :: t => by
    show subChars n (c :: (t ++ n)) = true
    simp [subChars, subChars_append_right n t]

/-- A string is a Python substring of itself followed by anything. -/
lemma pyIn_self_append (k s : String) : pyIn k (k ++ s) = true := by
  show subChars k.data (k ++ s).data = true
  rw [String.data_append]
  exact subChars_append_left k.data s.data

/-- A string is a Python substring of anything followed by itself. -/
lemma pyIn_append_self (k s : String) : pyIn k (s ++ k) = true := by
  show subChars k.data (s ++ k).data = true
  rw [String.data_append]
  exact subChars_append_right k.data s.data

/-- The kind text is a substring of every "<kind>:<name>" section name. -/
lemma pyIn_kind_entry (kind nm : String) : pyIn kind (kind ++ ":" ++ nm) = true := by
  rw [String.append_assoc]
  exact pyIn_self_append kind (":" ++ nm)

/-- "default" is a substring of every "<kind>:default" section name. -/
lemma pyIn_default_fallback (kind : String) : pyIn "default" (kind ++ ":default") = true := by
  have h : kind ++ ":default" = (kind ++ ":") ++ "default" := by
    rw [String.append_assoc]
    have h2 : (":" : String) ++ "default" = ":default" := by decide
    rw [h2]
  rw [h]
  exact pyIn_append_self "default" (kind ++ ":")

/-- The scan of __get_section is the first section satisfying the
declarative first-match predicate, provided every candidate section
carries the classifier key. -/
lemma scan_eq_find (kind ck q : String) (c : Cfg)
    (hwf : ∀ s ∈ c, isCandidate kind s = true → (sectGet s ck).isSome = true) :
    scanSections c kind ck q = (c.find? (matchesB kind ck q)).map Except.ok := by
  induction c with
  | nil => rfl
  | cons s rest ih =>
    have hrest : ∀ t ∈ rest, isCandidate kind t = true → (sectGet t ck).isSome = true :=
      fun t ht => hwf t (List.mem_cons_of_mem _ ht)
    by_cases hc : isCandidate kind s = true
    · rcases Option.isSome_iff_exists.mp (hwf s (List.mem_cons_self _ _) hc) with ⟨v, hv⟩
      by_cases hq : q ∈ pySplit v ' '
      · have hm : matchesB kind ck q s = true := by
          simp [matchesB, hc, hv, hq]
        rw [List.find?_cons_of_pos _ hm]
        simp [scanSections, hc, hv, hq]
      · have hm : ¬ matchesB kind ck q s = true := by
          simp [matchesB, hc, hv, hq]
        rw [List.find?_cons_of_neg _ hm]
        simp [scanSections, hc, hv, hq, ih hrest]
    · have hm : ¬ matchesB kind ck q s = true := by
        simp [matchesB, hc]
      rw [List.find?_cons_of_neg _ hm]
      simp [scanSections, hc, ih hrest]

/-- A section returned as a scan match is a candidate (its name has the
kind as substring and does not contain "default"). -/
lemma scan_ok_candidate (kind ck q : String) (c : Cfg) (s : Sect)
    (h : scanSections c kind ck q = some (.ok s)) : isCandidate kind s = true := by
  induction c with
  | nil => simp [scanSections] at h
  | cons t rest ih =>
    by_cases hc : isCandidate kind t = true
    · cases hv : sectGet t ck with
      | none => simp [scanSections, hc, hv] at h
      | some v =>
        by_cases hq : q ∈ pySplit v ' '
        · simp [scanSections, hc, hv, hq] at h
          exact h ▸ hc
        · simp [scanSections, hc, hv, hq] at h
          exact ih h
    · simp [scanSections, hc] at h
      exact ih h

/-- A section found by name lookup carries that exact name. -/
lemma cfgGet_name (c : Cfg) (n : String) (s : Sect) (h : cfgGet c n = some s) :
    s.name = n := by
  have hp := List.find?_some h
  exact eq_of_beq hp

lemma sectSet_name (s : Sect) (k v : String) : (sectSet s k v).name = s.name := by
  unfold sectSet
  split <;> rfl

/-- Looking up the section an option write addressed sees the write. -/
lemma cfgGet_cfgSet_self (c : Cfg) (n k v : String) :
    cfgGet (cfgSet c n k v) n = (cfgGet c n).map (fun s => sectSet s k v) := by
  unfold cfgGet cfgSet
  rw [List.find?_map]
  have hpred : ((fun s : Sect => s.name == n) ∘
      (fun s => if s.name == n then sectSet s k v else s)) = fun s : Sect => s.name == n := by
    funext s
    by_cases h : (s.name == n) = true
    · simp [Function.comp, h, sectSet_name]
    · simp [Function.comp, h]
  rw [hpred]
  cases hf : c.find? (fun s => s.name == n) with
  | none => rfl
  | some s =>
    have hp := List.find?_some hf
    simp [eq_of_beq hp]

/-- Reading back the key an option write mentioned yields the new value. -/
lemma sectGet_sectSet_self (s : Sect) (k v : String) :
    sectGet (sectSet s k v) k = some v := by
  unfold sectSet sectGet
  cases h : s.entries.any (fun p => p.1 == k) with
  | true =>
    simp only [h, if_true]
    rw [List.find?_map]
    have hpred : ((fun p : String × String => p.1 == k) ∘
        (fun p => if p.1 == k then (k, v) else p)) = fun p : String × String => p.1 == k := by
      funext p
      by_cases hp : (p.1 == k) = true
      · simp [Function.comp, hp]
      · simp [Function.comp, hp]
    rw [hpred]
    rw [List.any_eq_true] at h
    rcases h with ⟨p0, hp0, hpp⟩
    have hsome : (s.entries.find? (fun p => p.1 == k)).isSome := by
      rw [List.find?_isSome]
      exact ⟨p0, hp0, hpp⟩
    rcases Option.isSome_iff_exists.mp hsome with ⟨p1, hp1⟩
    have hp1p := List.find?_some hp1
    rw [hp1]
    simp [eq_of_beq hp1p]
  | false =>
    simp only [h, Bool.false_eq_true, if_false]
    rw [List.find?_append]
    have hnone : s.entries.find? (fun p => p.1 == k) = none := by
      rw [List.find?_eq_none]
      intro x hx
      have := (List.any_eq_false.mp h) x hx
      simpa using this
    simp [hnone, List.find?]

/-- An option write leaves every other key of the section unchanged. -/
lemma sectGet_sectSet_other (s : Sect) (k v k2 : String) (hne : k2 ≠ k) :
    sectGet (sectSet s k v) k2 = sectGet s k2 := by
  have hkk2 : (k == k2) = false := by
    rw [beq_eq_false_iff_ne]
    exact fun hx => hne hx.symm
  unfold sectSet sectGet
  cases h : s.entries.any (fun p => p.1 == k) with
  | true =>
    simp only [h, if_true]
    rw [List.find?_map]
    have hpred : ((fun p : String × String => p.1 == k2) ∘
        (fun p => if p.1 == k then (k, v) else p)) = fun p : String × String => p.1 == k2 := by
      funext p
      by_cases hp : (p.1 == k) = true
      · have hpk : p.1 = k := eq_of_beq hp
        simp [Function.comp, hp, hkk2, hpk]
      · simp [Function.comp, hp]
    rw [hpred]
    cases hf : s.entries.find? (fun p => p.1 == k2) with
    | none => rfl
    | some p1 =>
      have hp1 := List.find?_some hf
      have hp1k : p1.1 ≠ k := by
        rw [eq_of_beq hp1]
        exact hne
      simp [hp1k]
  | false =>
    simp only [h, Bool.false_eq_true, if_false]
    rw [List.find?_append]
    simp [List.find?, hkk2]

/-- The scan over a flat-encoded rule list returns exactly the first rule
whose classifier list contains the query (as a section), falling through
to a trailing configuration the scan rejects. -/
lemma scan_flat (kind ck q : String) (clsStr : Command → String) (cs : List Command)
    (tail : Cfg)
    (hnames : ∀ e ∈ cs, pyIn "default" (kind ++ ":" ++ e.name) = false)
    (hcls : ∀ e ∈ cs, pySplit (clsStr e) ' ' = e.classes)
    (hckc : ck ≠ "command") (hcka : ck ≠ "args")
    (htail : scanSections tail kind ck q = none) :
    scanSections (cs.map (flatEntry kind ck clsStr) ++ tail) kind ck q =
      (cs.find? (fun e => decide (q ∈ e.classes))).map
        (fun e => Except.ok (flatEntry kind ck clsStr e)) := by
  have h1 : (("command" : String) == ck) = false :=
    beq_eq_false_iff_ne.mpr (fun hx => hckc hx.symm)
  have h2 : (("args" : String) == ck) = false :=
    beq_eq_false_iff_ne.mpr (fun hx => hcka hx.symm)
  induction cs with
  | nil => simpa using htail
  | cons e t ih =>
    have hcand : isCandidate kind (flatEntry kind ck clsStr e) = true := by
      simp [isCandidate, flatEntry, hnames e (List.mem_cons_self _ _), pyIn_kind_entry]
    have hget : sectGet (flatEntry kind ck clsStr e) ck = some (clsStr e) := by
      simp [sectGet, flatEntry, List.find?, h1, h2]
    have hsplit := hcls e (List.mem_cons_self _ _)
    by_cases hq : q ∈ e.classes
    · have hq2 : q ∈ pySplit (clsStr e) ' ' := by
        rw [hsplit]
        exact hq
      rw [List.find?_cons_of_pos _ (by simpa using hq)]
      simp [scanSections, hcand, hget, hq2]
    · have hq2 : ¬ q ∈ pySplit (clsStr e) ' ' := by
        rw [hsplit]
        exact hq
      rw [List.find?_cons_of_neg _ (by simpa using hq)]
      have iht := ih (fun x hx => hnames x (List.mem_cons_of_mem _ hx))
        (fun x hx => hcls x (List.mem_cons_of_mem _ hx))
      simp [scanSections, hcand, hget, hq2]
      exact iht

/-- The flat default section is never a scan match ("default" is in its
name), so a partition consisting only of it scans to nothing. -/
lemma scan_default_tail (kind ck q : String) (d : Command) :
    scanSections [⟨kind ++ ":default", [("command", d.command), ("args", d.args)]⟩]
      kind ck q = none := by
  have hc : isCandidate kind
      (⟨kind ++ ":default", [("command", d.command), ("args", d.args)]⟩ : Sect) = false := by
    simp [isCandidate, pyIn_default_fallback]
  simp [scanSections, hc]

/-- The fallback lookup of "<kind>:default" skips every flat rule section
whose name stays clear of "default". -/
lemma cfgGet_flat_default (kind ck : String) (clsStr : Command → String)
    (cs : List Command) (tail : Cfg)
    (hnames : ∀ e ∈ cs, pyIn "default" (kind ++ ":" ++ e.name) = false) :
    cfgGet (cs.map (flatEntry kind ck clsStr) ++ tail) (kind ++ ":default")
      = cfgGet tail (kind ++ ":default") := by
  unfold cfgGet
  rw [List.find?_append]
  have hnone : (cs.map (flatEntry kind ck clsStr)).find?
      (fun s => s.name == (kind ++ ":default")) = none := by
    rw [List.find?_eq_none]
    intro s hs
    rw [List.mem_map] at hs
    rcases hs with ⟨e, he, hse⟩
    intro hbeq
    have heq : s.name = kind ++ ":default" := eq_of_beq hbeq
    have hin : pyIn "default" (kind ++ ":" ++ e.name) = true := by
      show pyIn "default" (flatEntry kind ck clsStr e).name = true
      rw [show (flatEntry kind ck clsStr e).name = s.name from by rw [hse]]
      rw [heq]
      exact pyIn_default_fallback kind
    rw [hnames e he] at hin
    exact Bool.false_ne_true hin
  rw [hnone]
  simp

/-- Renaming the "classes" field always succeeds on an entry produced by
CommandDict.as_dict, whatever the new key is. -/
lemma renameYKey_toFields (c : Command) (new : String) :
    ∃ d, renameYKey (commandToFields c) "classes" new = .ok d := by
  have e1 : (("command" : String) == "classes") = false := by decide
  have e2 : (("args" : String) == "classes") = false := by decide
  have e3 : (("classes" : String) == "classes") = true := by decide
  refine ⟨setYKey [("command", .s c.command), ("args", .s c.args)] new (.l c.classes), ?_⟩
  simp [renameYKey, popKey, commandToFields, List.find?, List.filter, e1, e2, e3]

/-- The as_dict rename loop succeeds on every command list. -/
lemma renameCmds_classes (new : String) (cs : List Command) :
    ∃ l, renameCmds "classes" new (cs.map (fun c => (c.name, commandToFields c))) = .ok l := by
  induction cs with
  | nil => exact ⟨[], rfl⟩
  | cons c t ih =>
    rcases ih with ⟨l, hl⟩
    rcases renameYKey_toFields c new with ⟨d, hd⟩
    exact ⟨(c.name, d) :: l, by simp [renameCmds, hd, hl]⟩

/-- Ensuring a section makes its name lookup succeed. -/
lemma cfgGet_cfgEnsure (c : Cfg) (n : String) :
    ∃ s, cfgGet (cfgEnsure c n) n = some s := by
  unfold cfgGet cfgEnsure
  cases h : c.any (fun s => s.name == n) with
  | true =>
    simp only [h, if_true]
    rw [List.any_eq_true] at h
    rcases h with ⟨x, hx, hpx⟩
    exact Option.isSome_iff_exists.mp (List.find?_isSome.mpr ⟨x, hx, hpx⟩)
  | false =>
    simp only [h, Bool.false_eq_true, if_false]
    refine ⟨⟨n, []⟩, ?_⟩
    rw [List.find?_append]
    have hnone : c.find? (fun s => s.name == n) = none := by
      rw [List.find?_eq_none]
      intro x hx
      have := List.any_eq_false.mp h x hx
      simpa using this
    simp [hnone, List.find?]

/-! ## Claim theorems -/

/-- C1 counterexample: on a partition whose only non-default entry is
named "mydefault" and owns "txt" (stored first, next to a vi default),
the claim predicts resolve("txt") returns that emacs entry — the first
non-default Command whose classes contain the classifier — but the code
skips every section whose name contains "default" and returns the vi
default instead. -/
theorem claim_C1_counterexample :
    getFileEditor demoC1bad "txt" = .ok ⟨"file-editors", "vi", "", []⟩ ∧
    mkCommand "extensions"
        ⟨"file-editors:mydefault", [("command", "emacs"), ("args", ""), ("extensions", "txt")]⟩ =
      .ok ⟨"file-editors", "emacs", "", ["txt"]⟩ ∧
    "txt" ∈ (⟨"file-editors", "emacs", "", ["txt"]⟩ : Command).classes ∧
    (⟨"file-editors:mydefault",
        [("command", "emacs"), ("args", ""), ("extensions", "txt")]⟩ : Sect).name ≠
      "file-editors" ++ ":default" ∧
    (⟨"file-editors", "vi", "", []⟩ : Command).command ≠
      (⟨"file-editors", "emacs", "", ["txt"]⟩ : Command).command :=
  ⟨by decide, by decide, by decide, by decide, by decide⟩

/-- C1 amended: on a flat partition whose non-default entry names stay
clear of the substring "default" (and whose stored classifier strings
split back to the classifier lists), resolve returns exactly the first
entry, in insertion order, whose classifier list contains the
classifier, falling back to the partition's default section when none
matches and failing when that is also absent; concretely, the
nano/radare/vi registry resolves "md" to nano, "exe" to radare and "bin"
to the vi default. -/
theorem claim_C1_first_match_on_clean_names :
    (∀ (kind ck : String) (clsStr : Command → String) (cd : CommandDict) (q : String),
      (∀ e ∈ cd.commands, pyIn "default" (kind ++ ":" ++ e.name) = false) →
      (∀ e ∈ cd.commands, pySplit (clsStr e) ' ' = e.classes) →
      ck ≠ "command" → ck ≠ "args" →
      getSection (flatOf kind ck clsStr cd) kind ck q =
        match cd.commands.find? (fun e => decide (q ∈ e.classes)) with
        | some e => .ok (flatEntry kind ck clsStr e)
        | none =>
          match cd.default with
          | some d => .ok ⟨kind ++ ":default", [("command", d.command), ("args", d.args)]⟩
          | none => .error (.keyError (kind ++ ":default"))) ∧
    getFileEditor demoC1 "md" = .ok ⟨"file-editors", "nano", "", ["txt", "md"]⟩ ∧
    getFileEditor demoC1 "exe" = .ok ⟨"file-editors", "radare", "", ["exe"]⟩ ∧
    getFileEditor demoC1 "bin" = .ok ⟨"file-editors", "vi", "", []⟩ := by
  refine ⟨?_, by decide, by decide, by decide⟩
  intro kind ck clsStr cd q hnames hcls hckc hcka
  have htail : scanSections (match cd.default with
      | some d => [⟨kind ++ ":default", [("command", d.command), ("args", d.args)]⟩]
      | none => []) kind ck q = none := by
    cases cd.default with
    | none => rfl
    | some d => exact scan_default_tail kind ck q d
  have hscan := scan_flat kind ck q clsStr cd.commands _ hnames hcls hckc hcka htail
  unfold getSection flatOf
  rw [hscan]
  cases hf : cd.commands.find? (fun e => decide (q ∈ e.classes)) with
  | some e => rfl
  | none =>
    rw [show Option.map (fun e => Except.ok (flatEntry kind ck clsStr e))
      (none : Option Command) = none from rfl]
    rw [cfgGet_flat_default kind ck clsStr cd.commands _ hnames]
    cases hd : cd.default with
    | some d =>
      have hget : cfgGet [⟨kind ++ ":default", [("command", d.command), ("args", d.args)]⟩]
          (kind ++ ":default") =
          some ⟨kind ++ ":default", [("command", d.command), ("args", d.args)]⟩ := by
        simp [cfgGet, List.find?]
      rw [hget]
    | none => rfl

/-- Witness for C1: the clean-names hypotheses hold on the concrete
nano/radare/vi partition and the first-match characterization
instantiates there. -/
theorem claim_C1_witness :
    getSection (flatOf "file-editors" "extensions" (fun e => joinSpace e.classes) cdC1w)
      "file-editors" "extensions" "md" =
      (match cdC1w.commands.find? (fun e => decide ("md" ∈ e.classes)) with
       | some e => .ok (flatEntry "file-editors" "extensions" (fun e => joinSpace e.classes) e)
       | none =>
         match cdC1w.default with
         | some d => .ok ⟨"file-editors" ++ ":default", [("command", d.command), ("args", d.args)]⟩
         | none => .error (.keyError ("file-editors" ++ ":default"))) :=
  claim_C1_first_match_on_clean_names.1 "file-editors" "extensions"
    (fun e => joinSpace e.classes) cdC1w "md" (by decide) (by decide) (by decide) (by decide)

/-- C5 counterexample: a partition with a malformed rule section (no
extensions key) and a present default still makes resolution fail (with
the KeyError of the missing classifier key), so the no-match/no-default
case is not the only situation producing no Command. -/
theorem claim_C5_counterexample :
    getSection demoC5 "file-editors" "extensions" "txt" = .error (.keyError "extensions") ∧
    cfgGet demoC5 "file-editors:default" =
      some ⟨"file-editors:default", [("command", "vi")]⟩ :=
  ⟨by decide, by decide⟩

/-- C5 amended: on configurations whose candidate sections all carry the
classifier key, resolution fails exactly when no section matches and the
"<kind>:default" section is absent — the ConfigurationIncomplete
condition, surfaced as the KeyError of the missing default section. -/
theorem claim_C5_no_match_no_default (c : Cfg) (kind ck q : String)
    (hwf : ∀ s ∈ c, isCandidate kind s = true → (sectGet s ck).isSome = true) :
    getSection c kind ck q = .error (.keyError (kind ++ ":default")) ↔
      (c.find? (matchesB kind ck q) = none ∧ cfgGet c (kind ++ ":default") = none) := by
  unfold getSection
  rw [scan_eq_find kind ck q c hwf]
  cases hf : c.find? (matchesB kind ck q) with
  | some s => simp
  | none =>
    cases hg : cfgGet c (kind ++ ":default") with
    | some s => simp
    | none => simp

/-- Witness for C5: the empty configuration matches nothing, has no
default, and resolution indeed fails there. -/
theorem claim_C5_witness :
    getSection ([] : Cfg) "file-editors" "extensions" "txt" =
      .error (.keyError ("file-editors" ++ ":default")) :=
  (claim_C5_no_match_no_default [] "file-editors" "extensions" "txt" (by decide)).mpr
    ⟨rfl, rfl⟩

/-- C9: every Command returned by the flat implementation carries as its
name the text of the matched section's name before the first ":" (the
partition kind for well-formed names), and therefore never the entry's
own name whenever the two differ. -/
theorem claim_C9_name_is_kind_prefix (c : Cfg) (kind ck q : String) (s : Sect)
    (cmd : Command)
    (hs : getSection c kind ck q = .ok s)
    (hcmd : cfgGetCommand c kind ck q = .ok cmd)
    (hne : (pySplit s.name ':').getD 1 "" ≠ (pySplit s.name ':').headD "") :
    cmd.name = (pySplit s.name ':').headD "" ∧
    cmd.name ≠ (pySplit s.name ':').getD 1 "" := by
  unfold cfgGetCommand at hcmd
  rw [hs] at hcmd
  have hmk : mkCommand ck s = .ok cmd := hcmd
  unfold mkCommand at hmk
  cases hg : sectGet s "command" with
  | none =>
    rw [hg] at hmk
    exact absurd hmk (by simp)
  | some exe =>
    rw [hg] at hmk
    injection hmk with h2
    constructor
    · rw [← h2]
    · rw [← h2]
      exact fun hx => hne hx.symm

/-- Witness for C9: resolving "md" on the nano/radare/vi registry yields
a Command named "file-editors", not "nano". -/
theorem claim_C9_witness :
    (⟨"file-editors", "nano", "", ["txt", "md"]⟩ : Command).name =
      (pySplit ("file-editors:nano" : String) ':').headD "" ∧
    (⟨"file-editors", "nano", "", ["txt", "md"]⟩ : Command).name ≠
      (pySplit ("file-editors:nano" : String) ':').getD 1 "" :=
  claim_C9_name_is_kind_prefix demoC9 "file-editors" "extensions" "md"
    ⟨"file-editors:nano", [("command", "nano"), ("args", ""), ("extensions", "txt md")]⟩
    ⟨"file-editors", "nano", "", ["txt", "md"]⟩ (by decide) (by decide) (by decide)

/-- C10: a returned section whose name contains "default" can only be
the "<kind>:default" fallback section — sections with "default" anywhere
in their name are excluded from the classifier-matching scan even when
their classifier list contains the query. -/
theorem claim_C10_default_sections_excluded (c : Cfg) (kind ck q : String) (s : Sect)
    (hs : getSection c kind ck q = .ok s)
    (hdef : pyIn "default" s.name = true) :
    s.name = kind ++ ":default" := by
  unfold getSection at hs
  cases hscan : scanSections c kind ck q with
  | some r =>
    rw [hscan] at hs
    cases r with
    | error e => exact absurd hs (by simp)
    | ok s2 =>
      have hss : s2 = s := by injection hs
      subst hss
      have hc := scan_ok_candidate kind ck q c s2 hscan
      have hfalse : pyIn "default" s2.name = false := by
        simp [isCandidate] at hc
        exact hc.1
      rw [hdef] at hfalse
      exact absurd hfalse (by simp)
  | none =>
    rw [hscan] at hs
    cases hg : cfgGet c (kind ++ ":default") with
    | none =>
      rw [hg] at hs
      exact absurd hs (by simp)
    | some s2 =>
      rw [hg] at hs
      have hss : s2 = s := by injection hs
      subst hss
      exact cfgGet_name c _ s2 hg

/-- Witness for C10: the registry whose "file-editors:mydefault" section
owns "txt" still resolves "txt" to the fallback section. -/
theorem claim_C10_witness :
    (⟨"file-editors:default", [("command", "vi")]⟩ : Sect).name =
      "file-editors" ++ ":default" :=
  claim_C10_default_sections_excluded demoC10 "file-editors" "extensions" "txt"
    ⟨"file-editors:default", [("command", "vi")]⟩ (by decide) (by decide)

/-- C3 counterexample: upserting a named command with an empty classifier
set does not replace the partition's default — the write lands in its own
"file-editors:foo" section, the default section still holds vi, and a
resolve that falls back still returns vi, not the new command. -/
theorem claim_C3_counterexample :
    (setFileEditor demoC3 fooCmd).2 = none ∧
    cfgGet (setFileEditor demoC3 fooCmd).1 "file-editors:default" =
      some ⟨"file-editors:default", [("command", "vi"), ("args", "")]⟩ ∧
    getFileEditor (setFileEditor demoC3 fooCmd).1 "zzz" =
      .ok ⟨"file-editors", "vi", "", []⟩ ∧
    (⟨"file-editors", "vi", "", []⟩ : Command).command ≠ fooCmd.command :=
  ⟨by decide, by decide, by decide, by decide⟩

/-- C3 amended: the default is replaced exactly when the upserted command
is addressed by the reserved name "default" (as the CLI --default flag
does); after such an upsert, any resolve that reaches the fallback
returns the new default executable. -/
theorem claim_C3_default_replaced_only_by_name (c : Cfg) (exe av kind ck q : String)
    (hck : classesName kind = some ck)
    (hscan : scanSections (setCommand c ⟨"default", exe, av, []⟩ kind).1 kind ck q = none) :
    ∃ s, getSection (setCommand c ⟨"default", exe, av, []⟩ kind).1 kind ck q = .ok s ∧
      sectGet s "command" = some exe := by
  have hcke : ck = "extensions" ∨ ck = "domains" := by
    unfold classesName at hck
    by_cases h1 : kind = "file-editors"
    · left
      simp [h1] at hck
      exact hck.symm
    · by_cases h2 : kind = "url-openers"
      · right
        simp [h1, h2] at hck
        exact hck.symm
      · simp [h1, h2] at hck
  have hckc : "command" ≠ ck := by
    rcases hcke with h | h <;> subst h <;> decide
  have hcka : "args" ≠ ck := by
    rcases hcke with h | h <;> subst h <;> decide
  have hcfg : (setCommand c ⟨"default", exe, av, []⟩ kind).1 =
      cfgSet (cfgSet (cfgSet (cfgEnsure c (kind ++ ":" ++ "default"))
        (kind ++ ":" ++ "default") "command" exe)
        (kind ++ ":" ++ "default") "args" av)
        (kind ++ ":" ++ "default") ck (joinSpace []) := by
    simp [setCommand, hck]
  rcases cfgGet_cfgEnsure c (kind ++ ":" ++ "default") with ⟨s0, hs0⟩
  have hget : cfgGet (setCommand c ⟨"default", exe, av, []⟩ kind).1
      (kind ++ ":" ++ "default") =
      some (sectSet (sectSet (sectSet s0 "command" exe) "args" av) ck (joinSpace [])) := by
    rw [hcfg, cfgGet_cfgSet_self, cfgGet_cfgSet_self, cfgGet_cfgSet_self, hs0]
    rfl
  have hsec : kind ++ ":" ++ "default" = kind ++ ":default" := by
    rw [String.append_assoc]
    have h2 : (":" : String) ++ "default" = ":default" := by decide
    rw [h2]
  refine ⟨sectSet (sectSet (sectSet s0 "command" exe) "args" av) ck (joinSpace []), ?_, ?_⟩
  · unfold getSection
    rw [hscan, ← hsec, hget]
  · rw [sectGet_sectSet_other _ _ _ _ hckc,
      sectGet_sectSet_other _ _ _ _ (by decide : ("command" : String) ≠ "args"),
      sectGet_sectSet_self]

/-- Witness for C3: starting from the empty configuration, upserting the
reserved name "default" installs a section the fallback resolves to. -/
theorem claim_C3_witness :
    ∃ s, getSection (setCommand [] ⟨"default", "nvim", "", []⟩ "file-editors").1
      "file-editors" "extensions" "zzz" = .ok s ∧
      sectGet s "command" = some "nvim" :=
  claim_C3_default_replaced_only_by_name [] "nvim" "" "file-editors" "extensions" "zzz"
    (by decide) (by decide)

/-- C4 counterexample: with sections editor:nano and opener:nanoview,
removing the unknown name "nanov" leaves the registry and suggests the
url-opener section "opener:nanoview" — a name outside the addressed
file-editor partition — although "nanov" is a substring of no name in
that partition ("editor:nano" and the entry name "nano" both lack it). -/
theorem claim_C4_counterexample :
    removeSection demoC4 "nanov" = none ∧
    suggestions demoC4 "nanov" = ["opener:nanoview"] ∧
    pyIn "nanov" "editor:nano" = false ∧
    pyIn "nanov" "nano" = false :=
  ⟨by decide, by decide, by decide, by decide⟩

/-- C4 amended: removal of a name matching no section leaves the
configuration unchanged and fails; the CLI suggestion list consists of
exactly the full section names, across both partitions, of which the
query is a substring. -/
theorem claim_C4_remove_missing (c : Cfg) (q : String)
    (h : ∀ s ∈ c, s.name ≠ q) :
    removeSection c q = none ∧
    (∀ nm, nm ∈ suggestions c q ↔ ∃ s, s ∈ c ∧ s.name = nm ∧ pyIn q nm = true) := by
  constructor
  · unfold removeSection
    have hany : c.any (fun s => s.name == q) = false := by
      rw [List.any_eq_false]
      intro x hx
      simp [h x hx]
    simp [hany]
  · intro nm
    unfold suggestions
    constructor
    · intro hnm
      rw [List.mem_map] at hnm
      rcases hnm with ⟨s, hsf, hsn⟩
      rw [List.mem_filter] at hsf
      exact ⟨s, hsf.1, hsn, by rw [hsn] at hsf; exact hsf.2⟩
    · rintro ⟨s, hs, hsn, hp⟩
      rw [List.mem_map]
      refine ⟨s, ?_, hsn⟩
      rw [List.mem_filter]
      exact ⟨hs, by rw [← hsn] at hp; exact hp⟩

/-- Witness for C4: instantiated on the two-partition registry with the
unknown query "nanov" and the suggestion "opener:nanoview". -/
theorem claim_C4_witness :
    removeSection demoC4 "nanov" = none ∧
    ("opener:nanoview" ∈ suggestions demoC4 "nanov" ↔
      ∃ s, s ∈ demoC4 ∧ s.name = "opener:nanoview" ∧ pyIn "nanov" "opener:nanoview" = true) :=
  ⟨(claim_C4_remove_missing demoC4 "nanov" (by decide)).1,
   (claim_C4_remove_missing demoC4 "nanov" (by decide)).2 "opener:nanoview"⟩

/-- C6: set_url_opener passes kind "opener", which classes_name does not
know, so every url-opener upsert raises AttributeError; moreover the
partially written "opener:ytdl" section is invisible to get_url_opener,
whose scan looks for "url-openers" — resolving "youtu.be" still yields
the firefox default rather than the added youtube-dl command. -/
theorem claim_C6_url_opener_add_broken :
    (∀ (c : Cfg) (cmd : Command), (setUrlOpener c cmd).2 = some TErr.attributeError) ∧
    getUrlOpener (setUrlOpener demoC6 ytdlCmd).1 "youtu.be" =
      .ok ⟨"url-openers", "firefox", "", []⟩ ∧
    (⟨"url-openers", "firefox", "", []⟩ : Command).command ≠ ytdlCmd.command := by
  refine ⟨?_, by decide, by decide⟩
  intro c cmd
  rfl

/-- C8: a URL whose parsed host is empty short-circuits to
"opener:default" without entering the matching scan — observably so, as
the same scan run on the empty classifier would match the "opener:qr"
section whose stored domains value is empty. -/
theorem claim_C8_empty_domain_short_circuit :
    (∀ c : Cfg, guessUrlCommand c "" = .ok "opener:default") ∧
    scanSections demoC8 "opener" "domains" "" =
      some (.ok ⟨"opener:qr", [("command", "qr"), ("domains", "")]⟩) ∧
    guessUrlCommand demoC8 "" = .ok "opener:default" :=
  ⟨fun _ => rfl, by decide, by decide⟩

/-- C2: the structured round trip always fails — as_dict emits the
top-level keys "file_editors"/"url_openers" (Python keyword names with
underscores) while load looks up "file-editors"/"url-openers", so
load(save(r)) raises AttributeError instead of returning r, for every
state r. -/
theorem claim_C2_roundtrip_fails :
    (∀ st : YAMLState, yamlRoundTrip st = .error TErr.attributeError) ∧
    yamlRoundTrip demoC2 = .error TErr.attributeError := by
  refine ⟨?_, by decide⟩
  intro st
  rcases renameCmds_classes "extensions" st.file_editors.commands with ⟨l1, h1⟩
  rcases renameCmds_classes "domains" st.url_openers.commands with ⟨l2, h2⟩
  have k1 : (("file_editors" : String) == "file-editors") = false := by decide
  have k2 : (("url_openers" : String) == "file-editors") = false := by decide
  simp [yamlRoundTrip, yamlAsDict, renamePart, commandDictToRaw, h1, h2,
    yamlLoad, lookupKey, List.find?, k1, k2, Except.bind]

/-- C7 counterexample: on the same rule set — one entry named
"mydefault" owning "txt", default vi — the structured implementation
resolves "txt" to the emacs entry while the flat implementation skips the
"default"-containing section name and falls back to vi: the two stores
are observably different. -/
theorem claim_C7_counterexample :
    cfgGetCommand flatC7 "file-editors" "extensions" "txt" =
      .ok ⟨"file-editors", "vi", "", []⟩ ∧
    yamlGetCommand cdC7 "txt" = .ok ⟨"mydefault", "emacs", "", ["txt"]⟩ ∧
    ¬ obsEq (cfgGetCommand flatC7 "file-editors" "extensions" "txt")
        (yamlGetCommand cdC7 "txt") := by
  refine ⟨by decide, by decide, ?_⟩
  intro hobs
  have h1 : cfgGetCommand flatC7 "file-editors" "extensions" "txt" =
      .ok ⟨"file-editors", "vi", "", []⟩ := by decide
  have h2 : yamlGetCommand cdC7 "txt" = .ok ⟨"mydefault", "emacs", "", ["txt"]⟩ := by decide
  rw [h1, h2] at hobs
  exact absurd hobs.1 (by decide)

/-- C7 amended: on registries whose entry names stay clear of the
substring "default" (and whose stored classifier strings split back to
the classifier lists), the flat and the structured implementation are
observably interchangeable: resolve yields the same executable, args and
classes, and both fail together when nothing matches and no default
exists. -/
theorem claim_C7_encodings_agree (kind ck : String) (clsStr : Command → String)
    (cd : CommandDict) (q : String)
    (hnames : ∀ e ∈ cd.commands, pyIn "default" (kind ++ ":" ++ e.name) = false)
    (hcls : ∀ e ∈ cd.commands, pySplit (clsStr e) ' ' = e.classes)
    (hckc : ck ≠ "command") (hcka : ck ≠ "args")
    (hdef : ∀ d, cd.default = some d → d.classes = []) :
    obsEq (cfgGetCommand (flatOf kind ck clsStr cd) kind ck q) (yamlGetCommand cd q) := by
  have h1 : (("command" : String) == ck) = false :=
    beq_eq_false_iff_ne.mpr (fun hx => hckc hx.symm)
  have h2 : (("args" : String) == ck) = false :=
    beq_eq_false_iff_ne.mpr (fun hx => hcka hx.symm)
  have htail : scanSections (match cd.default with
      | some d => [⟨kind ++ ":default", [("command", d.command), ("args", d.args)]⟩]
      | none => []) kind ck q = none := by
    cases cd.default with
    | none => rfl
    | some d => exact scan_default_tail kind ck q d
  have hscan := scan_flat kind ck q clsStr cd.commands _ hnames hcls hckc hcka htail
  unfold cfgGetCommand getSection flatOf
  rw [hscan]
  cases hf : cd.commands.find? (fun e => decide (q ∈ e.classes)) with
  | some e =>
    have he : e ∈ cd.commands := List.mem_of_find?_eq_some hf
    have hqe : q ∈ e.classes := by simpa using List.find?_some hf
    have hall : q ∈ (cd.commands.map (fun cmd => cmd.classes)).flatten := by
      rw [List.mem_flatten]
      exact ⟨e.classes, List.mem_map_of_mem _ he, hqe⟩
    have hyaml : yamlGetCommand cd q = .ok e := by
      unfold yamlGetCommand
      rw [if_pos hall, hf]
    rw [hyaml]
    have hmk : mkCommand ck (flatEntry kind ck clsStr e) =
        .ok ⟨(pySplit (kind ++ ":" ++ e.name) ':').headD "", e.command, e.args,
          pySplit (clsStr e) ' '⟩ := by
      have ha : (("command" : String) == "args") = false := by decide
      simp [mkCommand, sectGet, flatEntry, List.find?, h1, h2, ha]
    show obsEq (Except.bind (.ok (flatEntry kind ck clsStr e)) (mkCommand ck))
      (.ok e)
    rw [show Except.bind (.ok (flatEntry kind ck clsStr e)) (mkCommand ck) =
      mkCommand ck (flatEntry kind ck clsStr e) from rfl, hmk]
    exact ⟨rfl, rfl, hcls e he⟩
  | none =>
    have hnm : ¬ q ∈ (cd.commands.map (fun cmd => cmd.classes)).flatten := by
      rw [List.mem_flatten]
      rintro ⟨l, hl, hql⟩
      rw [List.mem_map] at hl
      rcases hl with ⟨e, he, hle⟩
      have hfe := List.find?_eq_none.mp hf e he
      rw [← hle] at hql
      simp [hql] at hfe
    rw [show Option.map (fun e => Except.ok (flatEntry kind ck clsStr e))
      (none : Option Command) = none from rfl]
    rw [cfgGet_flat_default kind ck clsStr cd.commands _ hnames]
    have hyamln : yamlGetCommand cd q =
        (match cd.default with
         | some d => .ok d
         | none => .error .configurationIncomplete) := by
      unfold yamlGetCommand
      rw [if_neg hnm]
    rw [hyamln]
    cases hd : cd.default with
    | some d =>
      have hget : cfgGet [⟨kind ++ ":default", [("command", d.command), ("args", d.args)]⟩]
          (kind ++ ":default") =
          some ⟨kind ++ ":default", [("command", d.command), ("args", d.args)]⟩ := by
        simp [cfgGet, List.find?]
      rw [hget]
      have hmk : mkCommand ck
          (⟨kind ++ ":default", [("command", d.command), ("args", d.args)]⟩ : Sect) =
          .ok ⟨(pySplit (kind ++ ":default") ':').headD "", d.command, d.args, []⟩ := by
        have ha : (("command" : String) == "args") = false := by decide
        simp [mkCommand, sectGet, List.find?, h1, h2, ha]
      show obsEq (Except.bind
        (.ok (⟨kind ++ ":default", [("command", d.command), ("args", d.args)]⟩ : Sect))
        (mkCommand ck)) (.ok d)
      rw [show Except.bind
        (.ok (⟨kind ++ ":default", [("command", d.command), ("args", d.args)]⟩ : Sect))
        (mkCommand ck) =
        mkCommand ck (⟨kind ++ ":default", [("command", d.command), ("args", d.args)]⟩ : Sect)
        from rfl, hmk]
      exact ⟨rfl, rfl, (hdef d hd).symm⟩
    | none =>
      exact trivial

/-- Witness for C7: both encodings of the ytdl/firefox url-opener
partition resolve "youtu.be" to the same observable command. -/
theorem claim_C7_witness :
    obsEq (cfgGetCommand
        (flatOf "url-openers" "domains" (fun e => joinSpace e.classes) cdC7w)
        "url-openers" "domains" "youtu.be")
      (yamlGetCommand cdC7w "youtu.be") :=
  claim_C7_encodings_agree "url-openers" "domains" (fun e => joinSpace e.classes)
    cdC7w "youtu.be" (by decide) (by decide) (by decide) (by decide)
    (by
      intro d hd
      injection hd with h
      rw [← h])

end Turmyx
